import Mathlib

/-
Verification development for the host-injector mutating admission webhook.

The engine exists in two variants in the repository: `main.go` and a second
source file whose original name is unknown (called `PartA` below, after its
richer helper structure: responseErrored / responseAllowed /
patchResponseFromRaw).  Both variants are embedded.  JSON documents (the raw
request object bytes, the re-encoded Pod, patch operation values) are
modelled by a first-order `Json` syntax in which arrays and objects are
cons-chains, so that all functions are structural and every concrete value
can be evaluated by the kernel.  Byte sequences on the patch wire are
modelled as `List Char`.
-/

namespace HostInjector

/-- Parsed JSON documents.  `arrCons`/`objCons` chains stand for array and
object nodes; object keys are unique in every value produced by the Go JSON
parser (duplicate keys collapse), and every value this development builds is
well formed in that sense. -/
inductive Json where
  | null
  | bool (b : Bool)
  | num (n : Int)
  | str (s : String)
  | arrNil
  | arrCons (hd tl : Json)
  | objNil
  | objCons (key : String) (value tail : Json)
deriving DecidableEq

/-- Build an array node from a list of elements. -/
def Json.arr : List Json → Json
  | [] => Json.arrNil
  | x :: xs => Json.arrCons x (Json.arr xs)

/-- Build an object node from a list of key/value fields. -/
def Json.obj : List (String × Json) → Json
  | [] => Json.objNil
  | (k, v) :: xs => Json.objCons k v (Json.obj xs)

/-- Structural size, used as a recursion budget for the patch diff. -/
def Json.size : Json → Nat
  | Json.arrCons hd tl => 1 + hd.size + tl.size
  | Json.objCons _ v tl => 1 + v.size + tl.size
  | _ => 1

/-- Is the value an object node? -/
def Json.isObj : Json → Bool
  | Json.objNil => true
  | Json.objCons _ _ _ => true
  | _ => false

/-- Field lookup in an object chain.  The last occurrence of a key wins,
mirroring Go's encoding/json, where a later duplicate key overwrites the
earlier one in the decoded map. -/
def lookupLast : Json → String → Option Json
  | Json.objCons k v tl, key =>
      match lookupLast tl key with
      | some r => some r
      | none => if k = key then some v else none
  | _, _ => none

/-- corev1.HostAlias: an IP with the hostnames that resolve to it. -/
structure HostAlias where
  ip : String
  hostnames : List String
deriving DecidableEq

/-- The part of corev1.PodSpec the engine reads and writes.  `none` models a
nil Go slice, `some []` an allocated empty one. -/
structure PodSpec where
  hostAliases : Option (List HostAlias)
deriving DecidableEq

/-- The decoded view of a Pod used by the engine: its labels mapping
(`none` models a nil Go map) and its spec. -/
structure Pod where
  labels : Option (List (String × String))
  spec : PodSpec
deriving DecidableEq

/-- The zero value of corev1.Pod: nil labels map, nil host-alias slice. -/
def podZero : Pod := ⟨none, ⟨none⟩⟩

/-- The marker label key, const watchingLabelKey = "k8s-app". -/
def watchingLabelKey : String := "k8s-app"

/-- Key-presence test on an optional labels mapping.  A nil map (`none`)
contains no key; Go map indexing on a nil map likewise reports absence
without failing. -/
def labelsHasKey : Option (List (String × String)) → String → Bool
  | none, _ => false
  | some l, key => l.any fun kv => kv.1 = key

/-- isWatching: a Pod participates iff its labels contain watchingLabelKey;
only the comma-ok presence bit of the map lookup is consulted. -/
def isWatching (p : Pod) : Bool :=
  labelsHasKey p.labels watchingLabelKey

/-- Decode an object chain as a string-to-string labels map.  A non-string,
non-null value makes json.Unmarshal fail; a null value leaves the zero
string. -/
def decodeLabelFields : Json → Option (List (String × String))
  | Json.objNil => some []
  | Json.objCons k (Json.str v) tl => (decodeLabelFields tl).map fun r => (k, v) :: r
  | Json.objCons k Json.null tl => (decodeLabelFields tl).map fun r => (k, "") :: r
  | _ => none

/-- Decode an array chain as a list of strings. -/
def decodeStrList : Json → Option (List String)
  | Json.arrNil => some []
  | Json.arrCons (Json.str s) tl => (decodeStrList tl).map fun r => s :: r
  | Json.arrCons Json.null tl => (decodeStrList tl).map fun r => "" :: r
  | _ => none

/-- Decode one hostAliases array element as a corev1.HostAlias.  Absent or
null fields leave the zero value, as json.Unmarshal does. -/
def decodeHostAlias (j : Json) : Option HostAlias :=
  match j with
  | Json.null => some ⟨"", []⟩
  | _ =>
    if j.isObj then do
      let ip ← (match lookupLast j "ip" with
        | none => some ""
        | some Json.null => some ""
        | some (Json.str s) => some s
        | some _ => none)
      let hs ← (match lookupLast j "hostnames" with
        | none => some []
        | some Json.null => some []
        | some a => decodeStrList a)
      some ⟨ip, hs⟩
    else none

/-- Decode an array chain as a list of host aliases. -/
def decodeAliasList : Json → Option (List HostAlias)
  | Json.arrNil => some []
  | Json.arrCons hd tl => do
      let a ← decodeHostAlias hd
      let r ← decodeAliasList tl
      some (a :: r)
  | _ => none

/-- Decode the metadata.labels portion of a Pod document.  The outer Option
is decode success; the inner Option distinguishes an absent (nil) map. -/
def decodeMetadata (j : Json) : Option (Option (List (String × String))) :=
  match lookupLast j "metadata" with
  | none => some none
  | some Json.null => some none
  | some m =>
    if m.isObj then
      match lookupLast m "labels" with
      | none => some none
      | some Json.null => some none
      | some l => if l.isObj then (decodeLabelFields l).map some else none
    else none

/-- Decode the spec.hostAliases portion of a Pod document. -/
def decodeSpecAliases (j : Json) : Option (Option (List HostAlias)) :=
  match lookupLast j "spec" with
  | none => some none
  | some Json.null => some none
  | some s =>
    if s.isObj then
      match lookupLast s "hostAliases" with
      | none => some none
      | some Json.null => some none
      | some a => (decodeAliasList a).map some
    else none

/-- Decode the fields of a Pod object document. -/
def decodePodFields (j : Json) : Option Pod := do
  let labels ← decodeMetadata j
  let ha ← decodeSpecAliases j
  some ⟨labels, ⟨ha⟩⟩

/-- Model of json.Unmarshal of the request's raw object bytes into a
corev1.Pod, restricted to the fields the engine observes.  Unknown keys are
ignored, JSON null leaves the zero value, and any other non-object document
is a decode error.  (On error the Go value keeps its zero value; the
modelled failing inputs fail at the top level, before any field is
populated.) -/
def decodePod (j : Json) : Option Pod :=
  match j with
  | Json.null => some podZero
  | _ => if j.isObj then decodePodFields j else none

/-- Encode a labels mapping, each value a JSON string. -/
def encodeLabels (l : List (String × String)) : Json :=
  Json.obj (l.map fun kv => (kv.1, Json.str kv.2))

/-- Encode one host alias; both fields carry omitempty tags in corev1. -/
def encodeHostAlias (h : HostAlias) : Json :=
  Json.obj ((if h.ip = "" then [] else [("ip", Json.str h.ip)]) ++
    (if h.hostnames.isEmpty then []
     else [("hostnames", Json.arr (h.hostnames.map Json.str))]))

/-- Model of json.Marshal of a corev1.Pod, restricted to the observable
fields.  Nil or empty collections are dropped, following their omitempty
tags; the metadata and spec objects themselves are always emitted. -/
def encodePod (p : Pod) : Json :=
  Json.obj
    [("metadata", Json.obj
        (match p.labels with
         | none => []
         | some [] => []
         | some l => [("labels", encodeLabels l)])),
     ("spec", Json.obj
        (match p.spec.hostAliases with
         | none => []
         | some [] => []
         | some hs => [("hostAliases", Json.arr (hs.map encodeHostAlias))]))]

/-- corev1.Service, restricted to the fields the directory reader uses. -/
structure Service where
  name : String
  ns : String
  type : String
  clusterIP : String
deriving DecidableEq

/-- corev1.ServiceTypeClusterIP. -/
def serviceTypeClusterIP : String := "ClusterIP"

/-- The pure body of getHostAliasesFromServices, applied to the Service
items returned by the directory listing: an explicit empty-list early
return, then one pass that skips non-ClusterIP Services and headless ones
(clusterIP empty or "None") and appends one alias with the three
synthesized hostnames for each survivor. -/
def hostAliasesOf (items : List Service) : List HostAlias :=
  if items.isEmpty then []
  else
    items.foldl
      (fun acc s =>
        if s.type ≠ serviceTypeClusterIP then acc
        else if s.clusterIP = "" ∨ s.clusterIP = "None" then acc
        else acc ++ [⟨s.clusterIP,
          [s.name ++ "." ++ s.ns ++ ".svc.cluster.local",
           s.name ++ "." ++ s.ns ++ ".svc",
           s.name ++ "." ++ s.ns]⟩])
      []

/-- getHostAliasesFromServices: the directory listing either fails, which
the function propagates, or yields items reduced by `hostAliasesOf`. -/
def getHostAliasesFromServices (dir : Except String (List Service)) :
    Except String (List HostAlias) :=
  match dir with
  | Except.error e => Except.error e
  | Except.ok items => Except.ok (hostAliasesOf items)

/-- One JSON Patch operation (RFC 6902): an op name, a path, and a value.
Remove operations carry `Json.null` as their value. -/
structure PatchOp where
  op : String
  path : String
  value : Json
deriving DecidableEq

/-- Modelled from the spec: part of the external diff library
gomodules.xyz/jsonpatch/v2 CreatePatch, which is not in this repository.
Emits one remove operation for every key of the original object chain `fa`
that the modified object chain `fb` lacks. -/
def diffRemoves (path : String) (fb : Json) : Json → List PatchOp
  | Json.objCons k _ tl =>
      (match lookupLast fb k with
       | some _ => []
       | none => [⟨"remove", path ++ "/" ++ k, Json.null⟩]) ++ diffRemoves path fb tl
  | _ => []

/- Modelled from the spec: the external diff library
gomodules.xyz/jsonpatch/v2 CreatePatch is not in this repository; this
follows its contract in spec section 4.3.  Equal documents produce no
operations; differing objects are diffed key by key into add, remove and
replace operations; any other differing pair is replaced wholesale (the
library refines differing arrays further, a refinement no claim depends
on).  The Nat argument is a recursion budget; `createPatch` supplies one
that the recursion can never exhaust. -/
mutual
def handleValues : Nat → String → Json → Json → List PatchOp
  | 0, _, _, _ => []
  | fuel + 1, path, a, b =>
    if a = b then []
    else
      match a, b with
      | Json.objCons k v tl, Json.objCons k' v' tl' =>
          diffAdds fuel path (Json.objCons k v tl) (Json.objCons k' v' tl') ++
            diffRemoves path (Json.objCons k' v' tl') (Json.objCons k v tl)
      | Json.objNil, Json.objCons k' v' tl' =>
          diffAdds fuel path Json.objNil (Json.objCons k' v' tl') ++
            diffRemoves path (Json.objCons k' v' tl') Json.objNil
      | Json.objCons k v tl, Json.objNil =>
          diffAdds fuel path (Json.objCons k v tl) Json.objNil ++
            diffRemoves path Json.objNil (Json.objCons k v tl)
      | _, _ => [⟨"replace", path, b⟩]

def diffAdds : Nat → String → Json → Json → List PatchOp
  | 0, _, _, _ => []
  | fuel + 1, path, fa, Json.objCons k bv tl =>
      (match lookupLast fa k with
       | none => [⟨"add", path ++ "/" ++ k, bv⟩]
       | some av => handleValues fuel (path ++ "/" ++ k) av bv) ++
        diffAdds fuel path fa tl
  | _ + 1, _, _, _ => []
end

/-- Modelled from the spec: jsonpatch.CreatePatch on two parsed documents,
rooted at the empty path. -/
def createPatch (a b : Json) : List PatchOp :=
  handleValues (a.size + b.size) "" a b

/-- A JSON string literal; the strings this system serializes contain no
character that needs escaping. -/
def quoteBytes (s : String) : List Char :=
  '"' :: s.toList ++ ['"']

/-- Comma-join pre-serialized chunks. -/
def joinComma : List (List Char) → List Char
  | [] => []
  | [x] => x
  | x :: xs => x ++ ',' :: joinComma xs

/- Serialize a JSON value to bytes, as encoding/json does. -/
mutual
def encodeJsonBytes : Json → List Char
  | Json.null => "null".toList
  | Json.bool true => "true".toList
  | Json.bool false => "false".toList
  | Json.num n => (toString n).toList
  | Json.str s => quoteBytes s
  | Json.arrNil => "[]".toList
  | Json.arrCons hd tl => '[' :: (encodeJsonBytes hd ++ encodeArrRest tl ++ [']'])
  | Json.objNil => "\x7b\x7d".toList
  | Json.objCons k v tl =>
      '\x7b' :: (quoteBytes k ++ ':' :: (encodeJsonBytes v ++ encodeObjRest tl ++ ['\x7d']))

def encodeArrRest : Json → List Char
  | Json.arrCons hd tl => ',' :: (encodeJsonBytes hd ++ encodeArrRest tl)
  | _ => []

def encodeObjRest : Json → List Char
  | Json.objCons k v tl => ',' :: (quoteBytes k ++ ':' :: (encodeJsonBytes v ++ encodeObjRest tl))
  | _ => []
end

/-- Modelled from the spec: jsonpatch Operation.MarshalJSON, which is not
in this repository.  One operation serializes as a single JSON object with
its op, path and (for operations that carry one) value. -/
def marshalOp (p : PatchOp) : List Char :=
  '\x7b' :: ("\"op\":".toList ++ quoteBytes p.op ++ ",\"path\":".toList ++ quoteBytes p.path ++
    (if p.value = Json.null then [] else ",\"value\":".toList ++ encodeJsonBytes p.value) ++
    ['\x7d'])

/-- The patch byte assembly loop of patchResponseFromRaw: start from an
allocated empty byte slice and append each operation's own serialization,
with nothing in between. -/
def patchBytesOf (ops : List PatchOp) : List Char :=
  ops.foldl (fun acc p => acc ++ marshalOp p) []

/-- Modelled from the spec: the RFC 6902 wire format of an operation list,
a single JSON array holding the serialized operations. -/
def rfcPatchDocument (ops : List PatchOp) : List Char :=
  '[' :: (joinComma (ops.map marshalOp) ++ [']'])

/-- A byte sequence is a well-formed JSON Patch document iff it is the
RFC 6902 array serialization of some operation list. -/
def IsJsonPatchDocument (bs : List Char) : Prop :=
  ∃ ops : List PatchOp, bs = rfcPatchDocument ops

/-- metav1.Status, restricted to the fields the engine sets. -/
structure Status where
  code : Int
  message : String
deriving DecidableEq

/-- admission/v1 AdmissionResponse, restricted to the fields the engine
sets.  `patch none` models a nil Go byte slice, `patch (some bs)` an
allocated slice with content `bs`; `patchType none` models a nil pointer. -/
structure AdmissionResponse where
  uid : String
  allowed : Bool
  result : Option Status
  warnings : List String
  patch : Option (List Char)
  patchType : Option String
deriving DecidableEq

/-- Whether the serialized response carries a patch field.  The k8s
AdmissionResponse declares Patch with an omitempty JSON tag, so a nil or
empty byte slice is omitted from the wire. -/
def AdmissionResponse.wireHasPatch (r : AdmissionResponse) : Bool :=
  match r.patch with
  | none => false
  | some bs => !bs.isEmpty

namespace PartA

/-- responseErrored: a denial carrying the given code and error text. -/
def responseErrored (uid : String) (code : Int) (msg : String) : AdmissionResponse :=
  ⟨uid, false, some ⟨code, msg⟩, [], none, none⟩

/-- responseAllowed: an allow carrying an informational message (the Status
code stays at its zero value). -/
def responseAllowed (uid msg : String) : AdmissionResponse :=
  ⟨uid, true, some ⟨0, msg⟩, [], none, none⟩

/-- patchResponseFromRaw: diff the original bytes against the re-encoded
current object, concatenate the marshaled operations into the patch slice,
and set PatchType only when at least one operation exists.  The library's
failure branches need malformed bytes, which parsed `Json` documents cannot
express, so the error paths are unreachable here. -/
def patchResponseFromRaw (uid : String) (original current : Json) : AdmissionResponse :=
  let patches := createPatch original current
  ⟨uid, true, none, [],
    some (patchBytesOf patches),
    if patches.isEmpty then none else some "JSONPatch"⟩

/-- The host-alias append loop: a nil slice is first replaced by an
allocated empty one, then every derived alias is appended in order. -/
def appendAliases (p : Pod) (al : List HostAlias) : Pod :=
  ⟨p.labels, ⟨some (p.spec.hostAliases.getD [] ++ al)⟩⟩

/-- mutatePods of the PartA variant.  `uid` is req.Request.UID, `raw` the
parsed request object document, `dir` the outcome of the directory listing.
When decoding fails the source builds responseErrored(uid, 400, err) but
does not return it - the statement's value is discarded - so execution
continues with the zero-value Pod; the model therefore falls through to
`podZero` on decode failure. -/
def mutatePods (uid : String) (raw : Json) (dir : Except String (List Service)) :
    AdmissionResponse :=
  let pod := (decodePod raw).getD podZero
  if !isWatching pod then responseAllowed uid "Pod is not watching"
  else
    match getHostAliasesFromServices dir with
    | Except.error e => responseErrored uid 500 ("failed to get host aliases: " ++ e)
    | Except.ok hostAliases =>
      if hostAliases.isEmpty then responseAllowed uid "No host aliases found"
      else patchResponseFromRaw uid raw (encodePod (appendAliases pod hostAliases))

end PartA

namespace MainGo

/-- Stands for err.Error() of the failed json.Unmarshal; the exact text is
produced by the Go standard library and does not matter to any claim. -/
def decodeErrorMessage : String := "cannot unmarshal object into Pod"

/-- json.Marshal of the hardcoded one-element operation list main.go
builds: add the value "dev" at /metadata/labels/env.  encoding/json sorts
the map keys, so op, path, value appear alphabetically. -/
def envDevPatchBytes : List Char :=
  "[\x7b\"op\":\"add\",\"path\":\"/metadata/labels/env\",\"value\":\"dev\"\x7d]".toList

/-- mutatePods of the main.go variant.  `uid` is req.Request.UID, which
this variant never reads: every response literal leaves the UID field at
its zero value.  The decode-failure return also leaves Allowed and the
Status code at their zero values, the directory-failure return carries only
Warnings, and the mutation branch returns the hardcoded label patch (the
host-alias append loop is commented out); everything after that return
statement is unreachable and is not modelled. -/
def mutatePods (uid : String) (raw : Json) (dir : Except String (List Service)) :
    AdmissionResponse :=
  match decodePod raw with
  | none => ⟨"", false, some ⟨0, decodeErrorMessage⟩, [], none, none⟩
  | some pod =>
    if !isWatching pod then ⟨"", true, some ⟨0, "Pod is not watching"⟩, [], none, none⟩
    else
      match dir with
      | Except.error e => ⟨"", false, none, ["Failed to get host aliases: " ++ e], none, none⟩
      | Except.ok items =>
        if (hostAliasesOf items).isEmpty then
          ⟨"", true, some ⟨0, "No host aliases found"⟩, [], none, none⟩
        else ⟨"", true, none, [], some envDevPatchBytes, some "JSONPatch"⟩

end MainGo

/-- The Pod of the worked scenario: labels contain the marker key with
value "x", no pre-existing host aliases. -/
def scenarioPod : Pod := ⟨some [("k8s-app", "x")], ⟨none⟩⟩

/-- The Service of the worked scenario. -/
def scenarioService : Service := ⟨"db", "prod", "ClusterIP", "10.0.0.5"⟩

/-- The alias the scenario Service should contribute. -/
def scenarioAlias : HostAlias :=
  ⟨"10.0.0.5", ["db.prod.svc.cluster.local", "db.prod.svc", "db.prod"]⟩

/-- The single diff operation the scenario produces: add the new
hostAliases array under /spec/hostAliases. -/
def scenarioAddOp : PatchOp :=
  ⟨"add", "/spec/hostAliases", Json.arr [encodeHostAlias scenarioAlias]⟩

theorem json_size_pos (j : Json) : 1 ≤ j.size := by
  cases j <;> simp [Json.size] <;> omega

theorem createPatch_self (a : Json) : createPatch a a = [] := by
  unfold createPatch
  obtain ⟨n, hn⟩ : ∃ n, a.size + a.size = n + 1 :=
    ⟨a.size + a.size - 1, by have := json_size_pos a; omega⟩
  rw [hn]
  simp [handleValues]

theorem patchBytesOf_nil : patchBytesOf [] = [] := rfl

theorem partA_response_shapes (u : String) (raw : Json) (dir : Except String (List Service)) :
    (∃ c msg, PartA.mutatePods u raw dir = PartA.responseErrored u c msg) ∨
    (∃ msg, PartA.mutatePods u raw dir = PartA.responseAllowed u msg) ∨
    (∃ cur, PartA.mutatePods u raw dir = PartA.patchResponseFromRaw u raw cur) := by
  unfold PartA.mutatePods
  dsimp only
  split
  · exact Or.inr (Or.inl ⟨_, rfl⟩)
  · split
    · exact Or.inl ⟨_, _, rfl⟩
    · split
      · exact Or.inr (Or.inl ⟨_, rfl⟩)
      · exact Or.inr (Or.inr ⟨_, rfl⟩)

/-- C1: the PartA variant echoes the request UID on every response path,
but main.go's mutatePods never sets the UID field: a request with UID
"uid-123" is answered with an empty UID, so the response UID does not equal
the request UID there. -/
theorem uid_preservation_violated_by_mainGo :
    (∀ (u : String) (raw : Json) (dir : Except String (List Service)),
      (PartA.mutatePods u raw dir).uid = u) ∧
    (MainGo.mutatePods "uid-123" (encodePod scenarioPod) (Except.ok [scenarioService])).uid = "" ∧
    "uid-123" ≠ ("" : String) := by
  refine ⟨?_, by decide, by decide⟩
  intro u raw dir
  rcases partA_response_shapes u raw dir with ⟨c, msg, h⟩ | ⟨msg, h⟩ | ⟨cur, h⟩ <;> rw [h] <;> rfl

/-- C2: on a request object that fails to decode as a Pod, the PartA
variant does not return a terminal bad-request denial: the computed error
response is discarded, processing continues with the zero-value Pod, and
the answer is allowed=true with the "Pod is not watching" message. -/
theorem decode_failure_not_terminal_denial :
    decodePod (Json.str "not-a-pod") = none ∧
    PartA.mutatePods "u2" (Json.str "not-a-pod") (Except.ok [scenarioService]) =
      ⟨"u2", true, some ⟨0, "Pod is not watching"⟩, [], none, none⟩ ∧
    (PartA.mutatePods "u2" (Json.str "not-a-pod") (Except.ok [scenarioService])).allowed = true := by
  refine ⟨by decide, by decide, by decide⟩

/-- C3: eligibility reads only the presence of the marker key (a nil or
empty labels mapping is simply not eligible, with no failure), and both
variants answer an ineligible Pod with allowed=true and no patch. -/
theorem unwatched_pod_allowed_unchanged :
    labelsHasKey none watchingLabelKey = false ∧
    labelsHasKey (some []) watchingLabelKey = false ∧
    (∀ p : Pod, isWatching p = labelsHasKey p.labels watchingLabelKey) ∧
    (∀ (u : String) (raw : Json) (dir : Except String (List Service)) (p : Pod),
      decodePod raw = some p → isWatching p = false →
      PartA.mutatePods u raw dir = ⟨u, true, some ⟨0, "Pod is not watching"⟩, [], none, none⟩) ∧
    (∀ (u : String) (raw : Json) (dir : Except String (List Service)) (p : Pod),
      decodePod raw = some p → isWatching p = false →
      MainGo.mutatePods u raw dir = ⟨"", true, some ⟨0, "Pod is not watching"⟩, [], none, none⟩) := by
  refine ⟨rfl, rfl, fun p => rfl, ?_, ?_⟩
  · intro u raw dir p hdec hw
    unfold PartA.mutatePods
    rw [hdec]
    simp [hw, PartA.responseAllowed]
  · intro u raw dir p hdec hw
    unfold MainGo.mutatePods
    rw [hdec]
    simp [hw]

theorem unwatched_pod_allowed_unchanged_witness :
    PartA.mutatePods "u3" (encodePod podZero) (Except.ok [scenarioService]) =
      ⟨"u3", true, some ⟨0, "Pod is not watching"⟩, [], none, none⟩ ∧
    MainGo.mutatePods "u3" (encodePod podZero) (Except.ok [scenarioService]) =
      ⟨"", true, some ⟨0, "Pod is not watching"⟩, [], none, none⟩ :=
  ⟨unwatched_pod_allowed_unchanged.2.2.2.1 "u3" (encodePod podZero)
      (Except.ok [scenarioService]) podZero (by decide) (by decide),
   unwatched_pod_allowed_unchanged.2.2.2.2 "u3" (encodePod podZero)
      (Except.ok [scenarioService]) podZero (by decide) (by decide)⟩

/-- C4: the alias derivation keeps exactly the Services of type ClusterIP
whose clusterIP is neither empty nor "None", and each survivor contributes
exactly one alias carrying exactly the three synthesized hostnames. -/
theorem hostAliases_exactly_three_hostnames :
    ∀ items : List Service,
      hostAliasesOf items =
        items.filterMap fun s =>
          if s.type = serviceTypeClusterIP ∧ s.clusterIP ≠ "" ∧ s.clusterIP ≠ "None" then
            some ⟨s.clusterIP,
              [s.name ++ "." ++ s.ns ++ ".svc.cluster.local",
               s.name ++ "." ++ s.ns ++ ".svc",
               s.name ++ "." ++ s.ns]⟩
          else none := by
  have hfold : ∀ (items : List Service) (acc : List HostAlias),
      items.foldl
        (fun acc s =>
          if s.type ≠ serviceTypeClusterIP then acc
          else if s.clusterIP = "" ∨ s.clusterIP = "None" then acc
          else acc ++ [⟨s.clusterIP,
            [s.name ++ "." ++ s.ns ++ ".svc.cluster.local",
             s.name ++ "." ++ s.ns ++ ".svc",
             s.name ++ "." ++ s.ns]⟩])
        acc =
      acc ++ items.filterMap fun s =>
        if s.type = serviceTypeClusterIP ∧ s.clusterIP ≠ "" ∧ s.clusterIP ≠ "None" then
          some ⟨s.clusterIP,
            [s.name ++ "." ++ s.ns ++ ".svc.cluster.local",
             s.name ++ "." ++ s.ns ++ ".svc",
             s.name ++ "." ++ s.ns]⟩
        else none := by
    intro items
    induction items with
    | nil => intro acc; simp
    | cons s rest ih =>
      intro acc
      rw [List.foldl_cons, List.filterMap_cons, ih]
      by_cases h1 : s.type = serviceTypeClusterIP
      · by_cases h2 : s.clusterIP = ""
        · simp [h1, h2]
        · by_cases h3 : s.clusterIP = "None"
          · simp [h1, h2, h3]
          · simp [h1, h2, h3]
      · simp [h1]
  intro items
  unfold hostAliasesOf
  cases items with
  | nil => rfl
  | cons s rest => simpa using hfold (s :: rest) []

/-- C5: for the worked scenario (eligible Pod, one qualifying ClusterIP
Service) the PartA variant answers allowed=true with the diff operation
that adds the derived alias list under /spec/hostAliases, but main.go
answers with its hardcoded patch that adds the label env=dev instead - the
alias-appending patch the claim describes is not produced there. -/
theorem mutation_patch_env_label_not_aliases :
    hostAliasesOf [scenarioService] = [scenarioAlias] ∧
    PartA.appendAliases scenarioPod [scenarioAlias] =
      ⟨some [("k8s-app", "x")], ⟨some [scenarioAlias]⟩⟩ ∧
    createPatch (encodePod scenarioPod)
      (encodePod (PartA.appendAliases scenarioPod [scenarioAlias])) = [scenarioAddOp] ∧
    PartA.mutatePods "u5" (encodePod scenarioPod) (Except.ok [scenarioService]) =
      ⟨"u5", true, none, [], some (patchBytesOf [scenarioAddOp]), some "JSONPatch"⟩ ∧
    MainGo.mutatePods "u5" (encodePod scenarioPod) (Except.ok [scenarioService]) =
      ⟨"", true, none, [], some MainGo.envDevPatchBytes, some "JSONPatch"⟩ ∧
    MainGo.envDevPatchBytes ≠ patchBytesOf [scenarioAddOp] := by
  refine ⟨by decide, by decide, by decide, by decide, by decide, by decide⟩

/-- C6: when the directory read fails, the PartA variant fail-closes with a
500 status message, but main.go answers allowed=false with a nil Result and
only a warning attached - denied without a status message - which is
neither the fail-open shape (allowed=true with warnings) nor the
fail-closed shape (denial with a status message). -/
theorem directory_failure_discipline_violated :
    PartA.mutatePods "u6" (encodePod scenarioPod) (Except.error "boom") =
      ⟨"u6", false, some ⟨500, "failed to get host aliases: boom"⟩, [], none, none⟩ ∧
    MainGo.mutatePods "u6" (encodePod scenarioPod) (Except.error "boom") =
      ⟨"", false, none, ["Failed to get host aliases: boom"], none, none⟩ ∧
    (MainGo.mutatePods "u6" (encodePod scenarioPod) (Except.error "boom")).allowed = false ∧
    (MainGo.mutatePods "u6" (encodePod scenarioPod) (Except.error "boom")).result = none ∧
    (MainGo.mutatePods "u6" (encodePod scenarioPod) (Except.error "boom")).warnings ≠ [] := by
  refine ⟨by decide, by decide, by decide, by decide, by decide⟩

/-- C7: diffing any document against itself yields no operations, and in
that case the response byte slice stays empty, so the wire (the k8s Patch
field carries omitempty) has no patch field, and PatchType stays nil. -/
theorem diff_self_empty_response_unpatched :
    ∀ (u : String) (a : Json),
      createPatch a a = [] ∧
      (PartA.patchResponseFromRaw u a a).patch = some [] ∧
      (PartA.patchResponseFromRaw u a a).wireHasPatch = false ∧
      (PartA.patchResponseFromRaw u a a).patchType = none := by
  intro u a
  have h := createPatch_self a
  refine ⟨h, ?_, ?_, ?_⟩ <;>
    simp [PartA.patchResponseFromRaw, h, patchBytesOf_nil, AdmissionResponse.wireHasPatch]

/-- C8: every response either variant produces satisfies the chain: a
response whose serialized form carries a patch field (omitempty: a non-nil,
non-empty byte slice) has a non-nil PatchType, and a response with a
non-nil PatchType has allowed=true. -/
theorem patch_patchType_allowed_chain :
    ∀ (u : String) (raw : Json) (dir : Except String (List Service)),
      ((PartA.mutatePods u raw dir).wireHasPatch = true →
        (PartA.mutatePods u raw dir).patchType ≠ none) ∧
      ((PartA.mutatePods u raw dir).patchType ≠ none →
        (PartA.mutatePods u raw dir).allowed = true) ∧
      ((MainGo.mutatePods u raw dir).wireHasPatch = true →
        (MainGo.mutatePods u raw dir).patchType ≠ none) ∧
      ((MainGo.mutatePods u raw dir).patchType ≠ none →
        (MainGo.mutatePods u raw dir).allowed = true) := by
  intro u raw dir
  have hA : ((PartA.mutatePods u raw dir).wireHasPatch = true →
        (PartA.mutatePods u raw dir).patchType ≠ none) ∧
      ((PartA.mutatePods u raw dir).patchType ≠ none →
        (PartA.mutatePods u raw dir).allowed = true) := by
    rcases partA_response_shapes u raw dir with ⟨c, msg, h⟩ | ⟨msg, h⟩ | ⟨cur, h⟩ <;> rw [h]
    · exact ⟨by intro hw; simp [PartA.responseErrored, AdmissionResponse.wireHasPatch] at hw,
        by intro ht; simp [PartA.responseErrored] at ht⟩
    · exact ⟨by intro hw; simp [PartA.responseAllowed, AdmissionResponse.wireHasPatch] at hw,
        fun _ => rfl⟩
    · constructor
      · intro hw
        by_cases hp : (createPatch raw cur).isEmpty
        · rw [List.isEmpty_iff] at hp
          simp [PartA.patchResponseFromRaw, hp, patchBytesOf_nil,
            AdmissionResponse.wireHasPatch] at hw
        · simp [PartA.patchResponseFromRaw, hp]
      · intro _
        rfl
  have hB : ((MainGo.mutatePods u raw dir).wireHasPatch = true →
        (MainGo.mutatePods u raw dir).patchType ≠ none) ∧
      ((MainGo.mutatePods u raw dir).patchType ≠ none →
        (MainGo.mutatePods u raw dir).allowed = true) := by
    unfold MainGo.mutatePods
    split
    · exact ⟨by intro hw; simp [AdmissionResponse.wireHasPatch] at hw, by intro ht; simp at ht⟩
    · split
      · exact ⟨by intro hw; simp [AdmissionResponse.wireHasPatch] at hw, by intro ht; simp at ht⟩
      · split
        · exact ⟨by intro hw; simp [AdmissionResponse.wireHasPatch] at hw, by intro ht; simp at ht⟩
        · split
          · exact ⟨by intro hw; simp [AdmissionResponse.wireHasPatch] at hw,
              by intro ht; simp at ht⟩
          · exact ⟨fun _ => by simp, fun _ => rfl⟩
  exact ⟨hA.1, hA.2, hB.1, hB.2⟩

theorem patch_patchType_allowed_chain_witness :
    (PartA.mutatePods "u8" (encodePod scenarioPod) (Except.ok [scenarioService])).patchType ≠
      none ∧
    (PartA.mutatePods "u8" (encodePod scenarioPod) (Except.ok [scenarioService])).allowed =
      true :=
  ⟨(patch_patchType_allowed_chain "u8" (encodePod scenarioPod) (Except.ok [scenarioService])).1
      (by decide),
   (patch_patchType_allowed_chain "u8" (encodePod scenarioPod)
      (Except.ok [scenarioService])).2.1 (by decide)⟩

/-- C9: on the worked scenario the response carries a patch and the
JSONPatch PatchType, but the patch bytes are the bare concatenation of the
marshaled operations - they begin with an object brace, while every
RFC 6902 operation-list document is a JSON array beginning with a bracket -
so the bytes are not a well-formed JSON Patch document. -/
theorem patch_bytes_not_rfc6902_document :
    (PartA.mutatePods "u9" (encodePod scenarioPod) (Except.ok [scenarioService])).patch =
      some (patchBytesOf [scenarioAddOp]) ∧
    (PartA.mutatePods "u9" (encodePod scenarioPod) (Except.ok [scenarioService])).patchType =
      some "JSONPatch" ∧
    ¬ IsJsonPatchDocument (patchBytesOf [scenarioAddOp]) := by
  refine ⟨by decide, by decide, ?_⟩
  rintro ⟨ops, h⟩
  have h1 : (patchBytesOf [scenarioAddOp]).head? = some '\x7b' := by decide
  rw [h] at h1
  rw [show (rfcPatchDocument ops).head? = some '[' from rfl] at h1
  exact absurd h1 (by decide)

end HostInjector
